import Mathlib

/-!
Verification development for the Shapetone renderer.

The repository converts a visual source (image, video, GIF frame sequence,
or rasterized 3D mesh) into a grid of shapes whose size encodes local
brightness.  The definitions below are shallow embeddings of the core
engine functions:

* gifPlayer.ts            -> GifPlayer state machine (frames, compositing, advance)
* imageProcessor.ts       -> computeBrightnessGrid (brightness sampling)
* shapeDrawer.ts          -> batchDrawCircles / batchDrawTriangles / drawShape
* ShapetoneRenderer.ts    -> render (raster pass) and toSVG (vector export)
* objectLoader.ts         -> parseOBJ (text mesh) and parseSTL (binary mesh)

Modelling conventions:
* JavaScript numbers are modelled as rationals; decimal literals such as
  0.48 or 0.299 denote the exact decimal rationals (the binary float
  rounding of constants is not modelled).
* Machine truncation (the JavaScript bitwise-or-zero idiom) is modelled by
  toInt32 below, including the 32-bit wrap of ToInt32.
* Mesh float32 payloads are kept as their 32-bit little-endian bit
  patterns (natural numbers); the engine performs no arithmetic on them,
  so the encoding is a faithful injective representation.
* Canvas pixel surfaces are functions from coordinates to RGBA pixels;
  drawImage compositing uses standard source-over (the GIF patches the
  decoder produces only carry alpha 0 or 255, where source-over is exact).
-/

namespace Shapetone

/-- JavaScript truncation toward zero of a rational number. -/
def ratTrunc (q : ℚ) : ℤ :=
  if 0 ≤ q then ⌊q⌋ else ⌈q⌉

/-- JavaScript ToInt32 (the bitwise `| 0` idiom): truncate toward zero,
then wrap into the signed 32-bit range. -/
def toInt32 (q : ℚ) : ℤ :=
  (ratTrunc q + 2 ^ 31) % 2 ^ 32 - 2 ^ 31

/-- JavaScript Number.prototype.toFixed(1) rounding, kept as a rational
(serialization back to a string is not modelled). -/
def round1 (q : ℚ) : ℚ :=
  (⌊q * 10 + 1 / 2⌋ : ℚ) / 10

/-- JavaScript Number.prototype.toFixed(4) rounding, kept as a rational. -/
def round4 (q : ℚ) : ℚ :=
  (⌊q * 10000 + 1 / 2⌋ : ℚ) / 10000

/-! ## GIF player (gifPlayer.ts)

The GifPlayer owns the decoded frame list and a persistent composite
canvas (frameCanvas).  renderFrame issues canvas operations against the
composite surface; advance drives the frame clock. -/

/-- One RGBA pixel as stored in a canvas / ImageData byte buffer. -/
structure Pixel where
  r : ℕ
  g : ℕ
  b : ℕ
  a : ℕ
deriving DecidableEq

/-- The fully transparent pixel a cleared canvas reports. -/
def Pixel.transparent : Pixel := ⟨0, 0, 0, 0⟩

/-- A canvas pixel surface: pixel at column x, row y. -/
def Canvas : Type := ℕ → ℕ → Pixel

/-- Round a rational channel value to a byte, half away from zero is not
needed here: canvas compositing rounds to nearest (choice of tie direction
is host-defined; every pixel the claims exercise has alpha 0 or 255, where
the formula below is exact). -/
def roundByte (q : ℚ) : ℕ :=
  (⌊q + 1 / 2⌋).toNat

/-- Standard source-over compositing of a non-premultiplied source pixel
onto a destination pixel, as performed by CanvasRenderingContext2D.drawImage. -/
def sourceOver (s d : Pixel) : Pixel :=
  let aS : ℚ := (s.a : ℚ) / 255
  let aD : ℚ := (d.a : ℚ) / 255
  let aO : ℚ := aS + aD * (1 - aS)
  if aO = 0 then Pixel.transparent
  else
    ⟨roundByte (((s.r : ℚ) * aS + (d.r : ℚ) * aD * (1 - aS)) / aO),
     roundByte (((s.g : ℚ) * aS + (d.g : ℚ) * aD * (1 - aS)) / aO),
     roundByte (((s.b : ℚ) * aS + (d.b : ℚ) * aD * (1 - aS)) / aO),
     roundByte (aO * 255)⟩

/-- Frame bounding rectangle, as in gifuct's frame.dims. -/
structure GifDims where
  width : ℕ
  height : ℕ
  top : ℕ
  left : ℕ
deriving DecidableEq

/-- A decoded GIF frame as produced by decompressFrames: a bounding
rectangle, an RGBA patch buffer, a declared delay (hundredths of a
second) and a disposal mode. -/
structure DecompressedFrame where
  dims : GifDims
  patch : List ℕ
  delay : ℕ
  disposalType : ℕ

/-- Placeholder frame for out-of-range indexing (renderFrame is only ever
invoked with an in-range index by load and advance). -/
def defaultFrame : DecompressedFrame := ⟨⟨0, 0, 0, 0⟩, [], 0, 0⟩

/-- Pixel of a raw RGBA patch buffer of width w at patch-local (x, y). -/
def patchPixel (patch : List ℕ) (w x y : ℕ) : Pixel :=
  let idx := (y * w + x) * 4
  ⟨patch.getD idx 0, patch.getD (idx + 1) 0, patch.getD (idx + 2) 0,
   patch.getD (idx + 3) 0⟩

/-- The two composite-surface operations renderFrame performs:
ctx.clearRect of a rectangle, and ctx.drawImage of the patch canvas at a
position (the patch canvas holds the current frame's RGBA patch). -/
inductive CanvasOp where
  | clearRect (left top width height : ℕ)
  | drawPatch (patch : List ℕ) (left top width height : ℕ)

/-- Semantics of one composite-surface operation. -/
def applyOp (c : Canvas) : CanvasOp → Canvas
  | .clearRect l t w h => fun x y =>
      if l ≤ x ∧ x < l + w ∧ t ≤ y ∧ y < t + h then Pixel.transparent else c x y
  | .drawPatch p l t w h => fun x y =>
      if l ≤ x ∧ x < l + w ∧ t ≤ y ∧ y < t + h then
        sourceOver (patchPixel p w (x - l) (y - t)) (c x y)
      else c x y

/-- Apply a sequence of composite-surface operations in order. -/
def applyOps (c : Canvas) (ops : List CanvasOp) : Canvas :=
  ops.foldl applyOp c

/-- GifPlayer.renderFrame(index), as the list of operations it issues
against the composite surface: when the target index is positive and the
frame at index-1 declares disposalType 2 (restore to background), clear
that frame's rectangle; then draw the target frame's patch at its
position.  (Staging the patch through the cached patch canvas is a pure
data copy and is not an operation on the composite surface.) -/
def renderFrameOps (frames : List DecompressedFrame) (index : ℕ) : List CanvasOp :=
  let frame := frames.getD index defaultFrame
  (if 0 < index ∧ (frames.getD (index - 1) defaultFrame).disposalType = 2 then
    let pd := (frames.getD (index - 1) defaultFrame).dims
    [CanvasOp.clearRect pd.left pd.top pd.width pd.height]
  else [])
  ++ [CanvasOp.drawPatch frame.patch frame.dims.left frame.dims.top
        frame.dims.width frame.dims.height]

/-- GifPlayer state: decoded frames, current frame index, timestamp of the
last frame change, and the persistent composite surface (frameCanvas). -/
structure GifState where
  frames : List DecompressedFrame
  currentIndex : ℕ
  lastFrameTime : ℚ
  canvas : Canvas

/-- GifPlayer.advance, with the ambient performance.now() clock passed
explicitly.  A single-frame (or empty) GIF is static; otherwise the
effective delay is max(20, (delay || 10) * 10) milliseconds, and once the
elapsed time reaches it the player composites frame
(currentIndex + 1) mod frameCount and records the frame-change time. -/
def advance (s : GifState) (now : ℚ) : GifState :=
  if s.frames.length ≤ 1 then s
  else
    let frame := s.frames.getD s.currentIndex defaultFrame
    let delay : ℕ := max 20 ((if frame.delay = 0 then 10 else frame.delay) * 10)
    if now - s.lastFrameTime ≥ (delay : ℚ) then
      let newIndex := (s.currentIndex + 1) % s.frames.length
      { s with
        currentIndex := newIndex,
        canvas := applyOps s.canvas (renderFrameOps s.frames newIndex),
        lastFrameTime := now }
    else s

/-- Effective frame delay as the specification states it:
max(20 ms, declaredDelay * 10). -/
def specEffectiveDelay (declaredDelay : ℕ) : ℕ :=
  max 20 (declaredDelay * 10)

/-- Membership of a coordinate in a frame's bounding rectangle. -/
def inDims (d : GifDims) (x y : ℕ) : Prop :=
  d.left ≤ x ∧ x < d.left + d.width ∧ d.top ≤ y ∧ y < d.top + d.height

instance (d : GifDims) (x y : ℕ) : Decidable (inDims d x y) := by
  unfold inDims; infer_instance

/-! ## Brightness sampling (imageProcessor.ts)

computeBrightnessGrid samples the current media pixel surface.  The
surface is modelled directly as the RGBA byte buffer getImageData returns
after the media is drawn at its intrinsic size onto the offscreen canvas. -/

/-- A media pixel surface: intrinsic size plus the flat RGBA byte buffer
obtained from getImageData at that size. -/
structure MediaSurface where
  width : ℕ
  height : ℕ
  data : List ℕ

/-- User-controlled transform of the source-media sampling window
(types/index.ts MediaTransform). -/
structure MediaTransform where
  scale : ℚ
  offsetX : ℚ
  offsetY : ℚ

/-- Result record of computeBrightnessGrid. -/
structure BrightnessGridResult where
  grid : List ℚ
  cols : ℕ
  rows : ℕ
  imgOffsetX : ℚ
  imgOffsetY : ℚ
  imgDrawWidth : ℚ
  imgDrawHeight : ℚ
deriving DecidableEq

/-- Body of the sampling loop of computeBrightnessGrid for one grid cell:
map the cell center through the (already transformed) draw rectangle into
media coordinates, then resolve out-of-bounds and transparent pixels to
bgBrightness, blend semi-transparent pixels, and apply the
contrast/brightness adjustment with clamping. -/
def sampleCell (media : MediaSurface)
    (finalOffsetX finalOffsetY scaleX scaleY spacing contrast brightness
      bgBrightness : ℚ) (row col : ℕ) : ℚ :=
  let vx : ℚ := (col : ℚ) * spacing + spacing * 0.5
  let vy : ℚ := (row : ℚ) * spacing + spacing * 0.5
  let mx : ℤ := toInt32 ((vx - finalOffsetX) * scaleX)
  let my : ℤ := toInt32 ((vy - finalOffsetY) * scaleY)
  if mx < 0 ∨ (media.width : ℤ) ≤ mx ∨ my < 0 ∨ (media.height : ℤ) ≤ my then
    bgBrightness
  else
    let idx := (my.toNat * media.width + mx.toNat) * 4
    let a := media.data.getD (idx + 3) 0
    if a < 10 then bgBrightness
    else
      let r := media.data.getD idx 0
      let g := media.data.getD (idx + 1) 0
      let b := media.data.getD (idx + 2) 0
      let lum0 : ℚ := (0.299 * (r : ℚ) + 0.587 * (g : ℚ) + 0.114 * (b : ℚ)) / 255
      let lum1 : ℚ :=
        if a < 255 then lum0 * ((a : ℚ) / 255) + bgBrightness * (1 - (a : ℚ) / 255)
        else lum0
      let lum2 : ℚ := ((lum1 - 0.5) * contrast) + 0.5 + brightness / 255
      if lum2 < 0 then 0 else if lum2 > 1 then 1 else lum2

/-- computeBrightnessGrid (imageProcessor.ts): aspect-fit the media into
the canvas, layer the optional media transform on top (scale about the fit
rectangle's center, then offset), and sample one brightness value per grid
cell, row-major. -/
def computeBrightnessGrid (media : MediaSurface)
    (canvasWidth canvasHeight spacing contrast brightness : ℚ)
    (mediaTransform : Option MediaTransform) (bgBrightness : ℚ) :
    BrightnessGridResult :=
  if media.width = 0 ∨ media.height = 0 then ⟨[], 0, 0, 0, 0, 0, 0⟩
  else
    let imgAspect : ℚ := (media.width : ℚ) / (media.height : ℚ)
    let canvasAspect : ℚ := canvasWidth / canvasHeight
    -- aspect-ratio-preserving fit: (drawW, drawH, offsetX, offsetY)
    let fit : ℚ × ℚ × ℚ × ℚ :=
      if imgAspect > canvasAspect then
        (canvasWidth, canvasWidth / imgAspect, 0,
          (canvasHeight - canvasWidth / imgAspect) / 2)
      else
        (canvasHeight * imgAspect, canvasHeight,
          (canvasWidth - canvasHeight * imgAspect) / 2, 0)
    match fit with
    | (drawW, drawH, offsetX, offsetY) =>
      let mt := mediaTransform.getD ⟨1, 0, 0⟩
      let scaledDrawW := drawW * mt.scale
      let scaledDrawH := drawH * mt.scale
      let finalOffsetX := offsetX + (drawW - scaledDrawW) / 2 + mt.offsetX
      let finalOffsetY := offsetY + (drawH - scaledDrawH) / 2 + mt.offsetY
      let scaleX := (media.width : ℚ) / scaledDrawW
      let scaleY := (media.height : ℚ) / scaledDrawH
      let cols := (⌈canvasWidth / spacing⌉).toNat
      let rows := (⌈canvasHeight / spacing⌉).toNat
      let grid := (List.range rows).flatMap (fun row =>
        (List.range cols).map (fun col =>
          sampleCell media finalOffsetX finalOffsetY scaleX scaleY spacing
            contrast brightness bgBrightness row col))
      ⟨grid, cols, rows, finalOffsetX, finalOffsetY, scaledDrawW, scaledDrawH⟩

/-- Luminance formula as the specification states it:
(0.299 R + 0.587 G + 0.114 B) normalized to the unit interval. -/
def specLuminance (r g b : ℕ) : ℚ :=
  (0.299 * (r : ℚ) + 0.587 * (g : ℚ) + 0.114 * (b : ℚ)) / 255

/-- Contrast/brightness adjustment with clamping as the specification
states it: ((lum - 0.5) * contrast) + 0.5 + brightness / 255, clamped. -/
def specAdjust (lum contrast brightness : ℚ) : ℚ :=
  let v := ((lum - 0.5) * contrast) + 0.5 + brightness / 255
  if v < 0 then 0 else if v > 1 then 1 else v

/-- Cell value the claim asserts for a semi-transparent pixel: luminance
blended with backgroundBrightness weighted by alpha / 255, then the
contrast/brightness adjustment. -/
def specBlendedCell (r g b a : ℕ) (bg contrast brightness : ℚ) : ℚ :=
  specAdjust (specLuminance r g b * ((a : ℚ) / 255) + bg * (1 - (a : ℚ) / 255))
    contrast brightness

/-! ## Shape drawing (shapeDrawer.ts) and the render / toSVG passes
(ShapetoneRenderer.ts)

Both passes are modelled as the list of primitives they emit, one per
drawn grid cell, tagged with the cell coordinates and the computed radius.
Raster fills and SVG markup serialization (including toFixed coordinate
rounding, kept via round1/round4) carry the same geometric data.
Math.sqrt(3), an irrational float constant shared by both triangle paths,
is passed in as an opaque rational parameter sqrt3. -/

/-- Shape kinds (types/index.ts ShapeType). -/
inductive ShapeType where
  | circle
  | square
  | triangleUp
  | text
  | custom
deriving DecidableEq

/-- A drawn primitive: the geometric payload of one raster draw call or
one SVG element. -/
inductive Prim where
  | circle (cx cy r : ℚ)
  | rect (x y w h : ℚ)
  | tri (x1 y1 x2 y2 x3 y3 : ℚ)
  | text (cx cy fontSize : ℚ)
  | path (tx ty scale : ℚ)
deriving DecidableEq

/-- One emitted primitive together with its grid cell and computed radius. -/
structure CellPrim where
  row : ℕ
  col : ℕ
  r : ℚ
  prim : Prim
deriving DecidableEq

/-- Projection of an emitted primitive to its cell and radius (the data
the structural-equivalence claim compares between raster and vector). -/
def cellOf (c : CellPrim) : ℕ × ℕ × ℚ :=
  (c.row, c.col, c.r)

/-- batchDrawCircles (shapeDrawer.ts): one compound path accumulating a
circle per visible cell; clamping is the source's ternary chain and cells
with radius below 0.3 are skipped. -/
def batchDrawCircles (grid : List ℚ) (cols rows : ℕ)
    (spacing maxRadius minScale maxScale : ℚ) (invert : Bool) : List CellPrim :=
  (List.range rows).flatMap (fun row =>
    (List.range cols).filterMap (fun col =>
      let b0 := grid.getD (row * cols + col) 0
      let b := if invert then 1 - b0 else b0
      let size := minScale + b * (maxScale - minScale)
      let cs := if size < 0 then 0 else if size > 1 then 1 else size
      let r := maxRadius * cs
      if r < 0.3 then none
      else
        let cx := (col : ℚ) * spacing + spacing * 0.5
        let cy := (row : ℚ) * spacing + spacing * 0.5
        some ⟨row, col, r, Prim.circle cx cy r⟩))

/-- batchDrawTriangles (shapeDrawer.ts): same loop as batchDrawCircles
but accumulating an upward triangle with circumradius r per visible cell. -/
def batchDrawTriangles (grid : List ℚ) (cols rows : ℕ)
    (spacing maxRadius minScale maxScale : ℚ) (invert : Bool) (sqrt3 : ℚ) :
    List CellPrim :=
  (List.range rows).flatMap (fun row =>
    (List.range cols).filterMap (fun col =>
      let b0 := grid.getD (row * cols + col) 0
      let b := if invert then 1 - b0 else b0
      let size := minScale + b * (maxScale - minScale)
      let cs := if size < 0 then 0 else if size > 1 then 1 else size
      let r := maxRadius * cs
      if r < 0.3 then none
      else
        let cx := (col : ℚ) * spacing + spacing * 0.5
        let cy := (row : ℚ) * spacing + spacing * 0.5
        let h := r * sqrt3
        some ⟨row, col, r, Prim.tri cx (cy - r) (cx - h / 2) (cy + r)
          (cx + h / 2) (cy + r)⟩))

/-- drawShape (shapeDrawer.ts) as the primitive it emits, or none when it
draws nothing: drawText returns without drawing when the font size r * 2
is below 1; the custom kind falls back to a circle when no path is
configured.  custom carries the configured viewBox (width, height). -/
def drawShape (shape : ShapeType) (cx cy r : ℚ)
    (custom : Option (ℚ × ℚ)) (sqrt3 : ℚ) : Option Prim :=
  match shape with
  | .circle => some (Prim.circle cx cy r)
  | .square => some (Prim.rect (cx - r) (cy - r) (r * 2) (r * 2))
  | .triangleUp =>
      let h := r * sqrt3
      some (Prim.tri cx (cy - r) (cx - h / 2) (cy + r) (cx + h / 2) (cy + r))
  | .text => if r * 2 < 1 then none else some (Prim.text cx cy (r * 2))
  | .custom =>
      match custom with
      | some (w, h) =>
          let scale := (r * 2) / max w h
          some (Prim.path (cx - w * scale / 2) (cy - h * scale / 2) scale)
      | none => some (Prim.circle cx cy r)

/-- The shape pass of ShapetoneRenderer.render: circles and upward
triangles go through the batch drawers, every other kind through the
per-cell drawShape loop.  minScale and maxScale are mapping.minSize / 100
and mapping.maxSize / 100. -/
def render (shape : ShapeType) (grid : List ℚ) (cols rows : ℕ)
    (spacing minScale maxScale : ℚ) (invert : Bool)
    (custom : Option (ℚ × ℚ)) (sqrt3 : ℚ) : List CellPrim :=
  let maxRadius := spacing * 0.48
  match shape with
  | .circle => batchDrawCircles grid cols rows spacing maxRadius minScale maxScale invert
  | .triangleUp =>
      batchDrawTriangles grid cols rows spacing maxRadius minScale maxScale invert sqrt3
  | _ =>
    (List.range rows).flatMap (fun row =>
      (List.range cols).filterMap (fun col =>
        let b0 := grid.getD (row * cols + col) 0
        let b := if invert then 1 - b0 else b0
        let size := minScale + b * (maxScale - minScale)
        let clampedSize := if size < 0 then 0 else if size > 1 then 1 else size
        let radius := maxRadius * clampedSize
        if radius < 0.3 then none
        else
          let cx := (col : ℚ) * spacing + spacing * 0.5
          let cy := (row : ℚ) * spacing + spacing * 0.5
          (drawShape shape cx cy radius custom sqrt3).map
            (fun p => ⟨row, col, radius, p⟩)))

/-- The element loop of ShapetoneRenderer.toSVG: one SVG element per cell
whose computed radius reaches 0.3, with clamping via Math.max/Math.min and
coordinates rounded by toFixed as in the emitted markup. -/
def toSVG (shape : ShapeType) (grid : List ℚ) (cols rows : ℕ)
    (spacing minScale maxScale : ℚ) (invert : Bool)
    (custom : Option (ℚ × ℚ)) (sqrt3 : ℚ) : List CellPrim :=
  let maxRadius := spacing * 0.48
  (List.range rows).flatMap (fun row =>
    (List.range cols).filterMap (fun col =>
      let b0 := grid.getD (row * cols + col) 0
      let brightness := if invert then 1 - b0 else b0
      let size := minScale + brightness * (maxScale - minScale)
      let clampedSize := max 0 (min 1 size)
      let r := maxRadius * clampedSize
      if r < 0.3 then none
      else
        let cx := round1 ((col : ℚ) * spacing + spacing / 2)
        let cy := round1 ((row : ℚ) * spacing + spacing / 2)
        let rs := round1 r
        some ⟨row, col, r,
          match shape with
          | .circle => Prim.circle cx cy rs
          | .square =>
              Prim.rect (round1 (cx - r)) (round1 (cy - r)) (round1 (r * 2))
                (round1 (r * 2))
          | .triangleUp =>
              let h2 := r * sqrt3
              Prim.tri cx (round1 (cy - r)) (round1 (cx - h2 / 2))
                (round1 (cy + r)) (round1 (cx + h2 / 2)) (round1 (cy + r))
          | .text => Prim.text cx cy (round1 (r * 2))
          | .custom =>
              match custom with
              | some (w, h) =>
                  let scale := (r * 2) / max w h
                  Prim.path (round1 (cx - w * scale / 2))
                    (round1 (cy - h * scale / 2)) (round4 scale)
              | none => Prim.circle cx cy rs⟩))

/-! ## Text mesh parsing (objectLoader.ts parseOBJ)

Strings are modelled as character lists; string.split, trim and the
regular-expression whitespace split are translated into structurally
recursive list functions.  Vertex and normal coordinate tokens are stored
unparsed (the engine hands them to parseFloat; no claim observes the
numeric values, only the counts and the index arithmetic). -/

/-- JavaScript String.prototype.split at a separator character: segments
between separators, keeping empty segments. -/
def splitOnChar (sep : Char) : List Char → List (List Char)
  | [] => [[]]
  | c :: rest =>
    let r := splitOnChar sep rest
    if c = sep then [] :: r
    else
      match r with
      | t :: ts => (c :: t) :: ts
      | [] => [[c]]

/-- Whitespace for trim and the \s+ split (space, tab, CR, LF — the
characters that occur inside a line of a mesh file). -/
def isWSChar (c : Char) : Bool :=
  c = ' ' ∨ c = '\t' ∨ c = '\r' ∨ c = '\n'

/-- JavaScript String.prototype.trim. -/
def trimChars (l : List Char) : List Char :=
  ((l.dropWhile isWSChar).reverse.dropWhile isWSChar).reverse

/-- Split at every character satisfying p, keeping empty segments. -/
def splitWhen (p : Char → Bool) : List Char → List (List Char)
  | [] => [[]]
  | c :: rest =>
    let r := splitWhen p rest
    if p c then [] :: r
    else
      match r with
      | t :: ts => (c :: t) :: ts
      | [] => [[c]]

/-- line.trim().split(/\s+/): on a trimmed line the regex split yields
exactly the nonempty whitespace-delimited tokens.  (On an all-whitespace
line JavaScript yields a single empty token, which matches no keyword;
here the token list is empty, which also matches no keyword.) -/
def tokensOf (line : List Char) : List (List Char) :=
  (splitWhen isWSChar (trimChars line)).filter (fun t => !t.isEmpty)

/-- Value of a nonempty leading run of decimal digits, none when the run
is empty. -/
def digitsPrefixVal (l : List Char) : Option ℕ :=
  let ds := l.takeWhile Char.isDigit
  if ds.isEmpty then none
  else some (ds.foldl (fun acc c => acc * 10 + (c.toNat - 48)) 0)

/-- JavaScript parseInt(s, 10) on the tokens a face line carries: skip
leading whitespace, an optional sign, then a leading digit run; none
models NaN (no digits). -/
def parseIntJS (l : List Char) : Option ℤ :=
  match l.dropWhile isWSChar with
  | '-' :: rest => (digitsPrefixVal rest).map (fun n => -(n : ℤ))
  | '+' :: rest => (digitsPrefixVal rest).map (fun n => (n : ℤ))
  | other => (digitsPrefixVal other).map (fun n => (n : ℤ))

/-- parts[i].split('/')[0]: the token up to the first slash. -/
def splitSlashHead (t : List Char) : List Char :=
  t.takeWhile (fun c => !(c = '/'))

/-- Index resolution of parseOBJ: a positive 1-based index becomes idx-1,
otherwise the index is taken relative to the end of the current vertex
list (tempVerts.length + idx). -/
def resolveIndex (tempVertsLength : ℕ) (idx : ℤ) : ℤ :=
  if 0 < idx then idx - 1 else (tempVertsLength : ℤ) + idx

/-- One face-vertex reference: parse the part before the first slash and
resolve it; none models the NaN JavaScript pushes for a malformed token. -/
def vrefResolve (tempVertsLength : ℕ) (t : List Char) : Option ℤ :=
  (parseIntJS (splitSlashHead t)).map (resolveIndex tempVertsLength)

/-- Fan triangulation of parseOBJ: for i from 1 while i < length - 1 push
the triple (faceVerts[0], faceVerts[i], faceVerts[i+1]) onto the flat
index list. -/
def fanIndices (faceVerts : List (Option ℤ)) : List (Option ℤ) :=
  (List.range' 1 (faceVerts.length - 2)).flatMap (fun i =>
    [faceVerts.getD 0 none, faceVerts.getD i none, faceVerts.getD (i + 1) none])

/-- Accumulated parseOBJ state: raw vertex and normal coordinate token
triples plus the flat triangulated index list (none standing for NaN). -/
structure OBJState where
  tempVerts : List (List Char × List Char × List Char)
  tempNormals : List (List Char × List Char × List Char)
  indices : List (Option ℤ)
deriving DecidableEq

/-- Line dispatch of parseOBJ: v lines and vn lines with at least three
coordinate tokens push a raw triple; f lines resolve their vertex
references against the current vertex count and append the fan
triangulation; other lines are ignored. -/
def processLine (s : OBJState) (line : List Char) : OBJState :=
  match tokensOf line with
  | v :: rest =>
    if v = ['v'] ∧ 3 ≤ rest.length then
      { s with tempVerts :=
          s.tempVerts ++ [(rest.getD 0 [], rest.getD 1 [], rest.getD 2 [])] }
    else if v = ['v', 'n'] ∧ 3 ≤ rest.length then
      { s with tempNormals :=
          s.tempNormals ++ [(rest.getD 0 [], rest.getD 1 [], rest.getD 2 [])] }
    else if v = ['f'] then
      let faceVerts := rest.map (vrefResolve s.tempVerts.length)
      { s with indices := s.indices ++ fanIndices faceVerts }
    else s
  | [] => s

/-- The line loop of parseOBJ (the geometry-buffer assembly and normal
computation that follow it are not observed by any claim). -/
def parseOBJ (text : List Char) : OBJState :=
  (splitOnChar '\n' text).foldl processLine ⟨[], [], []⟩

/-! ## Binary mesh parsing (objectLoader.ts parseSTL)

The buffer is a byte list; DataView reads are Option-valued (a read past
the end throws in JavaScript).  float32 payloads are kept as their 32-bit
little-endian bit patterns. -/

/-- DataView.getUint32(off, littleEndian). -/
def readU32LE (bs : List ℕ) (off : ℕ) : Option ℕ := do
  let b0 ← bs[off]?
  let b1 ← bs[off + 1]?
  let b2 ← bs[off + 2]?
  let b3 ← bs[off + 3]?
  pure (b0 + b1 * 256 + b2 * 65536 + b3 * 16777216)

/-- DataView.getFloat32(off, littleEndian), as the 32-bit bit pattern of
the float (the engine stores mesh floats without computing on them). -/
def readF32LE (bs : List ℕ) (off : ℕ) : Option ℕ :=
  readU32LE bs off

/-- Total little-endian 32-bit read used to state properties (agrees with
readU32LE / readF32LE wherever those succeed). -/
def f32At (bs : List ℕ) (off : ℕ) : ℕ :=
  bs.getD off 0 + bs.getD (off + 1) 0 * 256 + bs.getD (off + 2) 0 * 65536 +
    bs.getD (off + 3) 0 * 16777216

/-- One binary STL triangle record at offset 84 + i * 50: a float32 normal
triple, then three float32 vertex triples at vOffset = offset + 12 + v * 12;
the stored normal is written into the normal array once per vertex.  The
trailing 2 attribute bytes of the 50-byte record are never read. -/
def readTriangle (bs : List ℕ) (i : ℕ) : Option (List ℕ × List ℕ) := do
  let offset := 84 + i * 50
  let n ← (List.range 3).mapM (fun c => readF32LE bs (offset + 4 * c))
  let vs ← (List.range 3).mapM (fun v =>
    (List.range 3).mapM (fun c => readF32LE bs (offset + 12 + v * 12 + 4 * c)))
  pure (vs.flatten, (List.range 3).flatMap (fun _ => n))

/-- The binary branch of parseSTL: read the 4-byte little-endian triangle
count at offset 80 (after the 80-byte header), then decode that many
50-byte triangle records into flat vertex and normal arrays. -/
def parseSTLBinary (bs : List ℕ) : Option (ℕ × List ℕ × List ℕ) := do
  let triangleCount ← readU32LE bs 80
  let tris ← (List.range triangleCount).mapM (readTriangle bs)
  pure (triangleCount, (tris.map Prod.fst).flatten, (tris.map Prod.snd).flatten)

/-- ASCII detection of parseSTL: the first five bytes spell the text
marker solid (byte values 115, 111, 108, 105, 100). -/
def isAsciiSTL (bs : List ℕ) : Bool :=
  bs.take 5 == [115, 111, 108, 105, 100]

/-- Result of parseSTL: the ASCII variant is handed to the regex-scanning
parseSTLAscii (not observed by any claim), the binary variant decodes to
the triangle count and the flat vertex / normal arrays. -/
inductive STLResult where
  | ascii
  | binary (triangleCount : ℕ) (vertices normals : List ℕ)
deriving DecidableEq

/-- parseSTL dispatch: test the 5-byte magic token, then parse binary;
none models the RangeError a truncated binary buffer raises. -/
def parseSTL (bs : List ℕ) : Option STLResult :=
  if isAsciiSTL bs then some STLResult.ascii
  else (parseSTLBinary bs).map (fun kvn => STLResult.binary kvn.1 kvn.2.1 kvn.2.2)

/-! ## General helper lemmas -/

/-- Congruence for flatMap under pointwise equality on members. -/
theorem flatMap_congrOn {α β : Type} {l : List α} {f g : α → List β}
    (h : ∀ a ∈ l, f a = g a) : l.flatMap f = l.flatMap g := by
  induction l with
  | nil => rfl
  | cons x xs ih =>
      simp only [List.flatMap_cons]
      rw [h x (by simp), ih (fun a ha => h a (by simp [ha]))]

/-- Congruence for filterMap under pointwise equality on members. -/
theorem filterMap_congrOn {α β : Type} {l : List α} {f g : α → Option β}
    (h : ∀ a ∈ l, f a = g a) : l.filterMap f = l.filterMap g := by
  induction l with
  | nil => rfl
  | cons x xs ih =>
      simp only [List.filterMap_cons]
      rw [h x (by simp), ih (fun a ha => h a (by simp [ha]))]

/-- An Option-valued mapM that succeeds pointwise is the plain map. -/
theorem mapM_eq_some_map {α β : Type} {l : List α} {f : α → Option β}
    {g : α → β} (h : ∀ a ∈ l, f a = some (g a)) : l.mapM f = some (l.map g) := by
  induction l with
  | nil => rfl
  | cons x xs ih =>
      rw [List.mapM_cons, h x (by simp), ih (fun a ha => h a (by simp [ha]))]
      rfl

/-- Indexing into the flattening of uniformly sized blocks. -/
theorem flatten_getElem_uniform {α : Type} (L : List (List α)) (m : ℕ)
    (hm : ∀ l ∈ L, l.length = m) :
    ∀ i j : ℕ, i < L.length → j < m →
      L.flatten[i * m + j]? = (L.getD i [])[j]? := by
  induction L with
  | nil => intro i j hi _; cases hi
  | cons hd tl ih =>
      intro i j hi hj
      cases i with
      | zero =>
          have hhd : hd.length = m := hm hd (by simp)
          simp only [List.flatten_cons, Nat.zero_mul, Nat.zero_add, List.getD]
          rw [List.getElem?_append_left (by omega)]
          rfl
      | succ n =>
          have hhd : hd.length = m := hm hd (by simp)
          have hidx : (n + 1) * m + j = hd.length + (n * m + j) := by
            rw [hhd]; ring
          simp only [List.flatten_cons]
          rw [hidx, List.getElem?_append_right (by omega)]
          have : hd.length + (n * m + j) - hd.length = n * m + j := by omega
          rw [this]
          have htl := ih (fun l hl => hm l (by simp [hl])) n j (by
            simpa using hi) hj
          simpa using htl

/-- Length of a flatMap with uniformly sized blocks. -/
theorem length_flatMap_const {α β : Type} (l : List α) (f : α → List β) (m : ℕ)
    (h : ∀ a ∈ l, (f a).length = m) : (l.flatMap f).length = m * l.length := by
  induction l with
  | nil => simp
  | cons x xs ih =>
      simp only [List.flatMap_cons, List.length_append, List.length_cons]
      rw [h x (by simp), ih (fun a ha => h a (by simp [ha]))]
      ring

/-- The ternary clamp chain of the source equals the max/min clamp of the
SVG path. -/
theorem ternary_clamp_eq (x : ℚ) :
    (if x < 0 then (0 : ℚ) else if x > 1 then 1 else x) = max 0 (min 1 x) := by
  simp only [max_def, min_def]
  split_ifs <;> linarith

/-- getD in terms of a successful getElem?. -/
theorem getD_of_getElem? {α : Type} {l : List α} {i : ℕ} {a d : α}
    (h : l[i]? = some a) : l.getD i d = a := by
  rw [List.getD_eq_getElem?_getD, h]
  rfl

/-! ## C9: media-transform identity law -/

/-- C9: computeBrightnessGrid with the explicit identity media transform
(scale 1, offsets 0) returns the same result record as computeBrightnessGrid
with no media transform supplied. -/
theorem c9_mediaTransform_identity (media : MediaSurface)
    (canvasWidth canvasHeight spacing contrast brightness bgBrightness : ℚ) :
    computeBrightnessGrid media canvasWidth canvasHeight spacing contrast
      brightness (some ⟨1, 0, 0⟩) bgBrightness =
    computeBrightnessGrid media canvasWidth canvasHeight spacing contrast
      brightness none bgBrightness := rfl

/-! ## C5: brightness grid values stay in the unit interval -/

/-- Every branch of the sampling loop body yields a value in the unit
interval as long as the configured background brightness is in it. -/
theorem sampleCell_unit (media : MediaSurface)
    (fox foy sx sy spacing contrast brightness bg : ℚ)
    (hbg0 : 0 ≤ bg) (hbg1 : bg ≤ 1) (row col : ℕ) :
    0 ≤ sampleCell media fox foy sx sy spacing contrast brightness bg row col ∧
      sampleCell media fox foy sx sy spacing contrast brightness bg row col ≤ 1 := by
  unfold sampleCell
  dsimp only
  split_ifs <;>
    constructor <;> first
      | exact hbg0
      | exact hbg1
      | linarith
      | norm_num

/-- C5: every value of the brightness grid returned by
computeBrightnessGrid lies in the unit interval, for arbitrary (finite)
contrast and brightness inputs, with the background brightness inside its
documented 0..1 range. -/
theorem c5_grid_unit_interval (media : MediaSurface)
    (canvasWidth canvasHeight spacing contrast brightness bg : ℚ)
    (mt : Option MediaTransform) (hbg0 : 0 ≤ bg) (hbg1 : bg ≤ 1) :
    ∀ v ∈ (computeBrightnessGrid media canvasWidth canvasHeight spacing
      contrast brightness mt bg).grid, 0 ≤ v ∧ v ≤ 1 := by
  intro v hv
  unfold computeBrightnessGrid at hv
  split_ifs at hv with h0 h1
  · simp at hv
  all_goals
    dsimp only at hv
    rw [List.mem_flatMap] at hv
    obtain ⟨row, _hr, hrow⟩ := hv
    rw [List.mem_map] at hrow
    obtain ⟨col, _hc, hcol⟩ := hrow
    rw [← hcol]
    exact sampleCell_unit media _ _ _ _ spacing contrast brightness bg
      hbg0 hbg1 row col

/-- A 1x1 opaque white media surface. -/
def c5Media : MediaSurface := ⟨1, 1, [255, 255, 255, 255]⟩

/-- C5 witness: on a concrete 1x1 white surface the grid evaluates to a
single cell of brightness 1, which the theorem places in the unit
interval. -/
theorem c5_witness : 0 ≤ (1 : ℚ) ∧ (1 : ℚ) ≤ 1 := by
  have hg : (computeBrightnessGrid c5Media 1 1 1 1 0 none 0).grid = [1] := by
    norm_num [computeBrightnessGrid, sampleCell, toInt32, ratTrunc, c5Media,
      List.range_succ, Int.ceil_one, Int.toNat_one]
  exact c5_grid_unit_interval c5Media 1 1 1 1 0 0 none (by norm_num)
    (by norm_num) 1 (by rw [hg]; exact List.mem_singleton_self 1)

/-! ## C8: invert equals complementing the grid -/

/-- Row-major cell index bound. -/
theorem idx_lt (row col cols rows : ℕ) (hr : row < rows) (hc : col < cols) :
    row * cols + col < cols * rows := by
  calc row * cols + col < row * cols + cols := by omega
    _ = (row + 1) * cols := by ring
    _ ≤ rows * cols := Nat.mul_le_mul_right cols hr
    _ = cols * rows := Nat.mul_comm rows cols

/-- getD through the complement map, inside bounds. -/
theorem getD_map_sub (grid : List ℚ) (idx : ℕ) (h : idx < grid.length) :
    (grid.map (fun b => 1 - b)).getD idx 0 = 1 - grid.getD idx 0 := by
  rw [List.getD_eq_getElem?_getD, List.getD_eq_getElem?_getD,
    List.getElem?_map, List.getElem?_eq_getElem h]
  rfl

/-- C8: rendering with invert true equals rendering with invert false on
the grid whose every cell b is replaced by 1 - b; the downstream size
mapping is untouched.  This holds for the raster pass (render, including
the batched circle and triangle paths) and for the vector export (toSVG). -/
theorem c8_invert_complement (shape : ShapeType) (grid : List ℚ)
    (cols rows : ℕ) (spacing minScale maxScale : ℚ)
    (custom : Option (ℚ × ℚ)) (sqrt3 : ℚ) (h : cols * rows ≤ grid.length) :
    render shape grid cols rows spacing minScale maxScale true custom sqrt3 =
      render shape (grid.map (fun b => 1 - b)) cols rows spacing minScale
        maxScale false custom sqrt3 ∧
    toSVG shape grid cols rows spacing minScale maxScale true custom sqrt3 =
      toSVG shape (grid.map (fun b => 1 - b)) cols rows spacing minScale
        maxScale false custom sqrt3 := by
  have key : ∀ row col : ℕ, row ∈ List.range rows → col ∈ List.range cols →
      (grid.map (fun b => 1 - b)).getD (row * cols + col) 0 =
        1 - grid.getD (row * cols + col) 0 := by
    intro row col hr hc
    rw [List.mem_range] at hr hc
    exact getD_map_sub grid _ (lt_of_lt_of_le (idx_lt row col cols rows hr hc) h)
  constructor
  · cases shape <;>
      · unfold render batchDrawCircles batchDrawTriangles
        dsimp only
        apply flatMap_congrOn
        intro row hrow
        apply filterMap_congrOn
        intro col hcol
        dsimp only
        rw [key row col hrow hcol]
        simp
  · unfold toSVG
    apply flatMap_congrOn
    intro row hrow
    apply filterMap_congrOn
    intro col hcol
    dsimp only
    rw [key row col hrow hcol]
    simp

/-- C8 witness: a concrete one-cell grid instantiation of the invert law. -/
theorem c8_witness :
    render ShapeType.circle [1 / 2] 1 1 1 0 1 true none 0 =
      render ShapeType.circle (([1 / 2] : List ℚ).map (fun b => 1 - b)) 1 1 1 0 1
        false none 0 ∧
    toSVG ShapeType.circle [1 / 2] 1 1 1 0 1 true none 0 =
      toSVG ShapeType.circle (([1 / 2] : List ℚ).map (fun b => 1 - b)) 1 1 1 0 1
        false none 0 :=
  c8_invert_complement ShapeType.circle [1 / 2] 1 1 1 0 1 none 0 (by norm_num)

/-! ## C2: transparent and semi-transparent sampling -/

/-- flatMap as flatten of a map. -/
theorem flatMap_eq_flatten_map {α β : Type} (l : List α) (f : α → List β) :
    l.flatMap f = (l.map f).flatten := by
  induction l with
  | nil => rfl
  | cons x xs ih => simp [ih]

/-- Indexing a row-major grid built by flatMap over ranges. -/
theorem grid_flatMap_getElem {α : Type} (rows cols : ℕ) (f : ℕ → ℕ → α)
    (row col : ℕ) (hr : row < rows) (hc : col < cols) :
    ((List.range rows).flatMap (fun r => (List.range cols).map (f r)))[row * cols + col]? =
      some (f row col) := by
  rw [flatMap_eq_flatten_map]
  rw [flatten_getElem_uniform _ cols (by
    intro l hl
    rw [List.mem_map] at hl
    obtain ⟨r, _, hrl⟩ := hl
    rw [← hrl]
    simp) row col (by simp [hr]) hc]
  have h1 : ((List.range rows).map (fun r => (List.range cols).map (f r))).getD row [] =
      (List.range cols).map (f row) := by
    apply getD_of_getElem?
    simp [List.getElem?_range, hr]
  rw [h1]
  simp [List.getElem?_range, hc]

/-- The grid cell at (row, col) of computeBrightnessGrid is the sampling
loop body evaluated at the transformed draw rectangle the result records. -/
theorem computeBrightnessGrid_getElem (media : MediaSurface)
    (cw ch sp contrast brightness bg : ℚ) (mt : Option MediaTransform)
    (row col : ℕ) (hW : media.width ≠ 0) (hH : media.height ≠ 0)
    (hrow : row < (computeBrightnessGrid media cw ch sp contrast brightness mt bg).rows)
    (hcol : col < (computeBrightnessGrid media cw ch sp contrast brightness mt bg).cols) :
    (computeBrightnessGrid media cw ch sp contrast brightness mt bg).grid[
        row * (computeBrightnessGrid media cw ch sp contrast brightness mt bg).cols + col]? =
      some (sampleCell media
        (computeBrightnessGrid media cw ch sp contrast brightness mt bg).imgOffsetX
        (computeBrightnessGrid media cw ch sp contrast brightness mt bg).imgOffsetY
        ((media.width : ℚ) /
          (computeBrightnessGrid media cw ch sp contrast brightness mt bg).imgDrawWidth)
        ((media.height : ℚ) /
          (computeBrightnessGrid media cw ch sp contrast brightness mt bg).imgDrawHeight)
        sp contrast brightness bg row col) := by
  unfold computeBrightnessGrid at hrow hcol ⊢
  rw [if_neg (not_or.mpr ⟨hW, hH⟩)] at hrow hcol ⊢
  dsimp only at hrow hcol ⊢
  split_ifs at hrow hcol ⊢ with haspect
  all_goals
    dsimp only at hrow hcol ⊢
    exact grid_flatMap_getElem _ _ _ row col hrow hcol

/-- C2 (amended): in computeBrightnessGrid, a cell whose mapped source
coordinate is out of bounds receives exactly backgroundBrightness; a cell
landing on a pixel of alpha below 10 (which includes every fully
transparent pixel) also receives exactly backgroundBrightness, without
blending; and a cell landing on a pixel with alpha in 10..254 receives
its luminance blended with backgroundBrightness weighted by alpha / 255
before the contrast/brightness adjustment. -/
theorem c2_amended (media : MediaSurface)
    (cw ch sp contrast brightness bg : ℚ) (mt : Option MediaTransform)
    (row col : ℕ) (fox foy sx sy : ℚ) (mx my : ℤ) (idx a rr gg bb : ℕ)
    (hW : media.width ≠ 0) (hH : media.height ≠ 0)
    (hrow : row < (computeBrightnessGrid media cw ch sp contrast brightness mt bg).rows)
    (hcol : col < (computeBrightnessGrid media cw ch sp contrast brightness mt bg).cols)
    (hfox : fox = (computeBrightnessGrid media cw ch sp contrast brightness mt bg).imgOffsetX)
    (hfoy : foy = (computeBrightnessGrid media cw ch sp contrast brightness mt bg).imgOffsetY)
    (hsx : sx = (media.width : ℚ) /
      (computeBrightnessGrid media cw ch sp contrast brightness mt bg).imgDrawWidth)
    (hsy : sy = (media.height : ℚ) /
      (computeBrightnessGrid media cw ch sp contrast brightness mt bg).imgDrawHeight)
    (hmx : mx = toInt32 (((col : ℚ) * sp + sp * 0.5 - fox) * sx))
    (hmy : my = toInt32 (((row : ℚ) * sp + sp * 0.5 - foy) * sy))
    (hidx : idx = (my.toNat * media.width + mx.toNat) * 4)
    (ha : a = media.data.getD (idx + 3) 0)
    (hrr : rr = media.data.getD idx 0)
    (hgg : gg = media.data.getD (idx + 1) 0)
    (hbb : bb = media.data.getD (idx + 2) 0) :
    (computeBrightnessGrid media cw ch sp contrast brightness mt bg).grid[
        row * (computeBrightnessGrid media cw ch sp contrast brightness mt bg).cols + col]? =
      some (sampleCell media fox foy sx sy sp contrast brightness bg row col) ∧
    ((mx < 0 ∨ (media.width : ℤ) ≤ mx ∨ my < 0 ∨ (media.height : ℤ) ≤ my) →
      sampleCell media fox foy sx sy sp contrast brightness bg row col = bg) ∧
    (¬(mx < 0 ∨ (media.width : ℤ) ≤ mx ∨ my < 0 ∨ (media.height : ℤ) ≤ my) →
      a < 10 →
      sampleCell media fox foy sx sy sp contrast brightness bg row col = bg) ∧
    (¬(mx < 0 ∨ (media.width : ℤ) ≤ mx ∨ my < 0 ∨ (media.height : ℤ) ≤ my) →
      10 ≤ a → a < 255 →
      sampleCell media fox foy sx sy sp contrast brightness bg row col =
        specBlendedCell rr gg bb a bg contrast brightness) := by
  refine ⟨?_, ?_, ?_, ?_⟩
  · rw [hfox, hfoy, hsx, hsy]
    exact computeBrightnessGrid_getElem media cw ch sp contrast brightness bg mt
      row col hW hH hrow hcol
  · intro h
    unfold sampleCell
    dsimp only
    rw [← hmx, ← hmy, if_pos h]
  · intro h h10
    unfold sampleCell
    dsimp only
    rw [← hmx, ← hmy, if_neg h, ← hidx, ← ha, if_pos h10]
  · intro h h10 h255
    unfold sampleCell
    dsimp only
    rw [← hmx, ← hmy, if_neg h, ← hidx, ← ha, if_neg (not_lt.mpr h10),
      ← hrr, ← hgg, ← hbb, if_pos h255]
    unfold specBlendedCell specAdjust specLuminance
    dsimp only

/-- A 1x1 media surface holding a single white pixel of alpha 5. -/
def c2cMedia : MediaSurface := ⟨1, 1, [255, 255, 255, 5]⟩

/-- C2 counterexample: the single cell samples a semi-transparent pixel
(alpha 5, strictly between 0 and 255), yet the grid value is exactly the
background brightness 0, not the claimed blended-and-adjusted value 1/51:
alpha below 10 is treated as fully transparent. -/
theorem c2_counterexample :
    (computeBrightnessGrid c2cMedia 1 1 1 1 0 none 0).grid = [0] ∧
    c2cMedia.data.getD 3 0 = 5 ∧ (0 : ℕ) < 5 ∧ (5 : ℕ) < 255 ∧
    specBlendedCell 255 255 255 5 0 1 0 = 1 / 51 ∧
    (0 : ℚ) ≠ 1 / 51 := by
  refine ⟨?_, rfl, by norm_num, by norm_num, ?_, by norm_num⟩
  · norm_num [computeBrightnessGrid, sampleCell, toInt32, ratTrunc, c2cMedia,
      List.range_succ, Int.ceil_one, Int.toNat_one]
  · norm_num [specBlendedCell, specAdjust, specLuminance]

/-- A 1x1 media surface holding a single white pixel of alpha 51. -/
def c2wMedia : MediaSurface := ⟨1, 1, [255, 255, 255, 51]⟩

/-- C2 witness: with alpha 51 the cell value is the blended-and-adjusted
luminance of the amended claim. -/
theorem c2_witness :
    (computeBrightnessGrid c2wMedia 1 1 1 1 0 none 0).grid[0]? =
      some (sampleCell c2wMedia 0 0 1 1 1 1 0 0 0 0) ∧
    sampleCell c2wMedia 0 0 1 1 1 1 0 0 0 0 =
      specBlendedCell 255 255 255 51 0 1 0 := by
  have hR := c2_amended c2wMedia 1 1 1 1 0 0 none 0 0 0 0 1 1 0 0 0 51 255 255 255
    (by norm_num [c2wMedia]) (by norm_num [c2wMedia])
    (by norm_num [computeBrightnessGrid, c2wMedia, Int.ceil_one, Int.toNat_one])
    (by norm_num [computeBrightnessGrid, c2wMedia, Int.ceil_one, Int.toNat_one])
    (by norm_num [computeBrightnessGrid, c2wMedia])
    (by norm_num [computeBrightnessGrid, c2wMedia])
    (by norm_num [computeBrightnessGrid, c2wMedia])
    (by norm_num [computeBrightnessGrid, c2wMedia])
    (by norm_num [toInt32, ratTrunc])
    (by norm_num [toInt32, ratTrunc])
    (by norm_num [c2wMedia])
    (by norm_num [c2wMedia]) (by norm_num [c2wMedia])
    (by norm_num [c2wMedia]) (by norm_num [c2wMedia])
  refine ⟨?_, ?_⟩
  · have h := hR.1
    simpa using h
  · exact hR.2.2.2 (by norm_num [c2wMedia]) (by norm_num) (by norm_num)

/-! ## C3: raster / vector structural equivalence -/

/-- Filter distributes into flatMap. -/
theorem filter_flatMap {α β : Type} (l : List α) (f : α → List β) (p : β → Bool) :
    (l.flatMap f).filter p = l.flatMap (fun a => (f a).filter p) := by
  induction l with
  | nil => rfl
  | cons x xs ih => simp [List.filter_append, ih]

set_option maxHeartbeats 1000000 in
/-- Cell-set and radius agreement of raster and vector passes for every
shape kind other than text. -/
theorem render_toSVG_cells_eq (grid : List ℚ) (cols rows : ℕ)
    (spacing minScale maxScale : ℚ) (invert : Bool)
    (custom : Option (ℚ × ℚ)) (sqrt3 : ℚ) (shape : ShapeType)
    (hs : shape ≠ ShapeType.text) :
    (render shape grid cols rows spacing minScale maxScale invert custom
      sqrt3).map cellOf =
    (toSVG shape grid cols rows spacing minScale maxScale invert custom
      sqrt3).map cellOf := by
  rcases custom with _ | ⟨w, h⟩ <;> cases shape <;>
    first
    | exact absurd rfl hs
    | · unfold render toSVG batchDrawCircles batchDrawTriangles drawShape
        dsimp only
        rw [List.map_flatMap, List.map_flatMap]
        apply flatMap_congrOn
        intro row hrow
        rw [List.map_filterMap, List.map_filterMap]
        apply filterMap_congrOn
        intro col hcol
        dsimp only
        rw [ternary_clamp_eq]
        split_ifs <;> rfl

/-- Option.filter keeps a cell whose font size reaches 1. -/
theorem filter_font_some (c : CellPrim) (h : 1 ≤ c.r * 2) :
    Option.filter (fun c => decide (1 ≤ c.r * 2)) (some c) = some c := by
  simp [Option.filter, h]

/-- Option.filter drops a cell whose font size is below 1. -/
theorem filter_font_none (c : CellPrim) (h : c.r * 2 < 1) :
    Option.filter (fun c => decide (1 ≤ c.r * 2)) (some c) = none := by
  simp [Option.filter, not_le.mpr h]

set_option maxHeartbeats 1000000 in
/-- For text, the raster pass draws exactly the vector cells whose font
size reaches 1. -/
theorem render_text_cells (grid : List ℚ) (cols rows : ℕ)
    (spacing minScale maxScale : ℚ) (invert : Bool)
    (custom : Option (ℚ × ℚ)) (sqrt3 : ℚ) :
    (render ShapeType.text grid cols rows spacing minScale maxScale invert
      custom sqrt3).map cellOf =
    ((toSVG ShapeType.text grid cols rows spacing minScale maxScale invert
      custom sqrt3).filter (fun c => decide (1 ≤ c.r * 2))).map cellOf := by
  unfold render toSVG drawShape
  dsimp only
  rw [filter_flatMap, List.map_flatMap, List.map_flatMap]
  apply flatMap_congrOn
  intro row hrow
  rw [List.filter_filterMap, List.map_filterMap, List.map_filterMap]
  apply filterMap_congrOn
  intro col hcol
  dsimp only
  rw [ternary_clamp_eq]
  split_ifs
  all_goals
    first
    | rfl
    | (rename_i hfont
       rw [filter_font_none _ hfont]
       rfl)
    | (rename_i hfont
       rw [filter_font_some _ (not_lt.mp hfont)]
       rfl)

set_option maxHeartbeats 1000000 in
/-- Every cell the raster pass draws carries the claimed radius formula. -/
theorem render_radius_formula (grid : List ℚ) (cols rows : ℕ)
    (spacing minScale maxScale : ℚ) (invert : Bool)
    (custom : Option (ℚ × ℚ)) (sqrt3 : ℚ) (shape : ShapeType) :
    ∀ c ∈ render shape grid cols rows spacing minScale maxScale invert
      custom sqrt3,
      c.r = 0.48 * spacing * max 0 (min 1 (minScale +
        (if invert then 1 - grid.getD (c.row * cols + c.col) 0
          else grid.getD (c.row * cols + c.col) 0) * (maxScale - minScale))) := by
  intro c hc
  rcases custom with _ | ⟨w, h⟩ <;> cases shape <;>
    · unfold render batchDrawCircles batchDrawTriangles drawShape at hc
      dsimp only at hc
      rw [List.mem_flatMap] at hc
      obtain ⟨row, hrow, hc⟩ := hc
      rw [List.mem_filterMap] at hc
      obtain ⟨col, hcol, hbody⟩ := hc
      try dsimp only at hbody
      rw [ternary_clamp_eq] at hbody
      split_ifs at hbody ⊢
      all_goals
        try simp only [Option.map_some, Option.map_some', Option.map_none, Option.map_none', Option.some_inj] at hbody
        first
        | (rw [← hbody]
           try dsimp only
           ring)
        | exact Option.noConfusion hbody

/-- Every cell the vector export emits carries the claimed radius formula
(stated for text, the kind where the two passes differ). -/
theorem toSVG_radius_formula (grid : List ℚ) (cols rows : ℕ)
    (spacing minScale maxScale : ℚ) (invert : Bool)
    (custom : Option (ℚ × ℚ)) (sqrt3 : ℚ) :
    ∀ c ∈ toSVG ShapeType.text grid cols rows spacing minScale maxScale
      invert custom sqrt3,
      c.r = 0.48 * spacing * max 0 (min 1 (minScale +
        (if invert then 1 - grid.getD (c.row * cols + c.col) 0
          else grid.getD (c.row * cols + c.col) 0) * (maxScale - minScale))) := by
  intro c hc
  unfold toSVG at hc
  dsimp only at hc
  rw [List.mem_flatMap] at hc
  obtain ⟨row, hrow, hc⟩ := hc
  rw [List.mem_filterMap] at hc
  obtain ⟨col, hcol, hbody⟩ := hc
  try dsimp only at hbody
  split_ifs at hbody ⊢
  all_goals
    try simp only [Option.some_inj] at hbody
    first
    | (rw [← hbody]
       try dsimp only
       ring)
    | exact Option.noConfusion hbody

/-- C3 (amended): for every shape kind other than text, the SVG export
emits a primitive for exactly the cells the raster pass draws, with the
same computed radius (the raster pass and the vector pass agree on the
skip threshold 0.3 and on the size formula); for text, the raster pass
additionally skips cells whose font size r * 2 falls below 1, which the
SVG export still emits; and every cell either pass emits carries the
radius 0.48 * spacing * clamp(minScale + b * (maxScale - minScale), 0, 1)
for its (possibly inverted) brightness b. -/
theorem c3_amended (grid : List ℚ) (cols rows : ℕ)
    (spacing minScale maxScale : ℚ) (invert : Bool)
    (custom : Option (ℚ × ℚ)) (sqrt3 : ℚ) :
    (∀ shape : ShapeType, shape ≠ ShapeType.text →
      (render shape grid cols rows spacing minScale maxScale invert custom
        sqrt3).map cellOf =
      (toSVG shape grid cols rows spacing minScale maxScale invert custom
        sqrt3).map cellOf) ∧
    ((render ShapeType.text grid cols rows spacing minScale maxScale invert
        custom sqrt3).map cellOf =
      ((toSVG ShapeType.text grid cols rows spacing minScale maxScale invert
        custom sqrt3).filter (fun c => decide (1 ≤ c.r * 2))).map cellOf) ∧
    (∀ shape : ShapeType,
      ∀ c ∈ render shape grid cols rows spacing minScale maxScale invert
        custom sqrt3,
      c.r = 0.48 * spacing * max 0 (min 1 (minScale +
        (if invert then 1 - grid.getD (c.row * cols + c.col) 0
          else grid.getD (c.row * cols + c.col) 0) * (maxScale - minScale)))) ∧
    (∀ c ∈ toSVG ShapeType.text grid cols rows spacing minScale maxScale
        invert custom sqrt3,
      c.r = 0.48 * spacing * max 0 (min 1 (minScale +
        (if invert then 1 - grid.getD (c.row * cols + c.col) 0
          else grid.getD (c.row * cols + c.col) 0) * (maxScale - minScale)))) :=
  ⟨fun shape hs => render_toSVG_cells_eq grid cols rows spacing minScale
      maxScale invert custom sqrt3 shape hs,
   render_text_cells grid cols rows spacing minScale maxScale invert custom sqrt3,
   fun shape => render_radius_formula grid cols rows spacing minScale maxScale
      invert custom sqrt3 shape,
   toSVG_radius_formula grid cols rows spacing minScale maxScale invert custom sqrt3⟩

/-- C3 counterexample: with a single cell of brightness 5/6 at spacing 1,
the computed radius is 0.4: at or above the 0.3 skip threshold, but with
font size 0.8 below 1, so the raster text pass draws nothing while the
SVG export still emits one text element with the same radius. -/
theorem c3_counterexample :
    render ShapeType.text [5 / 6] 1 1 1 0 1 false none 0 = [] ∧
    (toSVG ShapeType.text [5 / 6] 1 1 1 0 1 false none 0).map cellOf =
      [(0, 0, 2 / 5)] := by
  constructor <;>
    norm_num [render, toSVG, drawShape, cellOf, List.range_succ, round1,
      min_def, max_def, List.filterMap_cons, List.filterMap_nil,
      List.flatMap_cons, List.flatMap_nil, List.map_cons, List.map_nil]

/-- C3 witness: a concrete non-text instantiation of the raster/vector
cell-set equality. -/
theorem c3_witness :
    (render ShapeType.circle [1 / 2] 1 1 1 0 1 false none 0).map cellOf =
      (toSVG ShapeType.circle [1 / 2] 1 1 1 0 1 false none 0).map cellOf :=
  (c3_amended [1 / 2] 1 1 1 0 1 false none 0).1 ShapeType.circle (by decide)

/-! ## C1: advance timing -/

/-- C1 (amended): advance is a no-op for single-frame GIFs; otherwise the
effective delay is max(20, d * 10) for a nonzero declared delay d and
max(20, 10 * 10) = 100 for a zero declared delay (the source substitutes
10 for a falsy delay before scaling); once the elapsed time reaches the
effective delay the player composites frame (currentIndex + 1) mod
frameCount onto the composite surface and advances, else it is a no-op. -/
theorem c1_advance_behavior (s : GifState) (now : ℚ) :
    (s.frames.length ≤ 1 → advance s now = s) ∧
    (1 < s.frames.length →
      (now - s.lastFrameTime ≥
          ((max 20 ((if (s.frames.getD s.currentIndex defaultFrame).delay = 0
            then 10 else (s.frames.getD s.currentIndex defaultFrame).delay)
            * 10) : ℕ) : ℚ) →
        (advance s now).currentIndex = (s.currentIndex + 1) % s.frames.length ∧
        (advance s now).canvas = applyOps s.canvas
          (renderFrameOps s.frames ((s.currentIndex + 1) % s.frames.length)) ∧
        (advance s now).lastFrameTime = now) ∧
      (now - s.lastFrameTime <
          ((max 20 ((if (s.frames.getD s.currentIndex defaultFrame).delay = 0
            then 10 else (s.frames.getD s.currentIndex defaultFrame).delay)
            * 10) : ℕ) : ℚ) →
        advance s now = s)) := by
  refine ⟨?_, ?_⟩
  · intro h
    unfold advance
    rw [if_pos h]
  · intro h
    constructor
    · intro hd
      unfold advance
      dsimp only
      rw [if_neg (by omega), if_pos hd]
      exact ⟨rfl, rfl, rfl⟩
    · intro hd
      unfold advance
      dsimp only
      rw [if_neg (by omega), if_neg (not_le.mpr hd)]

/-- Two-frame GIF whose first frame declares delay 0. -/
def c1State : GifState :=
  ⟨[⟨⟨1, 1, 0, 0⟩, [255, 0, 0, 255], 0, 0⟩,
    ⟨⟨1, 1, 0, 0⟩, [0, 255, 0, 255], 5, 0⟩], 0, 0, fun _ _ => Pixel.transparent⟩

/-- C1 counterexample: with a declared delay of 0 and 50 ms elapsed, the
elapsed time is at least the claimed effective delay max(20, 0 * 10) = 20,
yet advance is a no-op (the code substitutes 10 for the falsy delay,
giving an effective delay of 100 ms). -/
theorem c1_counterexample :
    c1State.frames.length = 2 ∧
    (c1State.frames.getD c1State.currentIndex defaultFrame).delay = 0 ∧
    (50 : ℚ) - c1State.lastFrameTime ≥
      (specEffectiveDelay
        (c1State.frames.getD c1State.currentIndex defaultFrame).delay : ℚ) ∧
    advance c1State 50 = c1State ∧
    (advance c1State 50).currentIndex ≠
      (c1State.currentIndex + 1) % c1State.frames.length := by
  have hnoop : advance c1State 50 = c1State := by
    unfold advance
    dsimp only
    rw [if_neg (by norm_num [c1State]),
      if_neg (by norm_num [c1State, defaultFrame])]
  refine ⟨rfl, rfl, ?_, hnoop, ?_⟩
  · norm_num [c1State, specEffectiveDelay, defaultFrame]
  · rw [hnoop]
    norm_num [c1State]

/-- Two-frame GIF with a nonzero declared delay of 5 on the current frame. -/
def c1bState : GifState :=
  ⟨[⟨⟨1, 1, 0, 0⟩, [255, 0, 0, 255], 5, 0⟩,
    ⟨⟨1, 1, 0, 0⟩, [0, 255, 0, 255], 5, 0⟩], 0, 0, fun _ _ => Pixel.transparent⟩

/-- C1 witness: with declared delay 5 (effective 50 ms) and 1000 ms
elapsed, advance moves to frame (0 + 1) mod 2 = 1 and records the time. -/
theorem c1_witness :
    (advance c1bState 1000).currentIndex = 1 ∧
    (advance c1bState 1000).lastFrameTime = 1000 := by
  have h := ((c1_advance_behavior c1bState 1000).2 (by norm_num [c1bState])).1
    (by norm_num [c1bState, defaultFrame])
  refine ⟨?_, h.2.2⟩
  rw [h.1]
  rfl

/-! ## C4: disposal handling when compositing frame index > 0 -/

/-- C4 (amended): when the sequencer composites a frame with target index
greater than 0, and the frame before it (the previously displayed frame
for every non-wrapping step) declares restore-to-background disposal, that
frame's bounding rectangle is cleared before the new frame's patch is
painted; for any other disposal mode the prior pixels are left in place
and the new patch is composited on top of them.  On the wrap back to
frame 0 no disposal is applied (see the C10 theorem). -/
theorem c4_amended (frames : List DecompressedFrame) (c : Canvas) (index : ℕ)
    (prev f : DecompressedFrame) (h0 : 0 < index)
    (hp : frames.getD (index - 1) defaultFrame = prev)
    (hf : frames.getD index defaultFrame = f) :
    (prev.disposalType = 2 → ∀ x y : ℕ, inDims prev.dims x y →
      ¬ inDims f.dims x y →
      applyOps c (renderFrameOps frames index) x y = Pixel.transparent) ∧
    (prev.disposalType = 2 → ∀ x y : ℕ, inDims f.dims x y →
      applyOps c (renderFrameOps frames index) x y =
        sourceOver (patchPixel f.patch f.dims.width (x - f.dims.left)
          (y - f.dims.top))
          (if inDims prev.dims x y then Pixel.transparent else c x y)) ∧
    (prev.disposalType ≠ 2 → ∀ x y : ℕ, ¬ inDims f.dims x y →
      applyOps c (renderFrameOps frames index) x y = c x y) ∧
    (prev.disposalType ≠ 2 → ∀ x y : ℕ, inDims f.dims x y →
      applyOps c (renderFrameOps frames index) x y =
        sourceOver (patchPixel f.patch f.dims.width (x - f.dims.left)
          (y - f.dims.top)) (c x y)) := by
  have hops : renderFrameOps frames index =
      (if prev.disposalType = 2 then
        [CanvasOp.clearRect prev.dims.left prev.dims.top prev.dims.width
          prev.dims.height]
      else []) ++
      [CanvasOp.drawPatch f.patch f.dims.left f.dims.top f.dims.width
        f.dims.height] := by
    unfold renderFrameOps
    rw [hp, hf]
    by_cases hd : prev.disposalType = 2
    · rw [if_pos ⟨h0, hd⟩, if_pos hd]
    · rw [if_neg (by tauto), if_neg hd]
  refine ⟨?_, ?_, ?_, ?_⟩
  · intro hd x y hin hout
    rw [hops, if_pos hd]
    simp only [List.singleton_append, applyOps, List.foldl, applyOp]
    rw [if_neg (by simpa [inDims] using hout), if_pos (by simpa [inDims] using hin)]
  · intro hd x y hin
    rw [hops, if_pos hd]
    simp only [List.singleton_append, applyOps, List.foldl, applyOp, inDims]
    rw [if_pos (by simpa [inDims] using hin)]
  · intro hd x y hout
    rw [hops, if_neg hd]
    simp only [List.nil_append, applyOps, List.foldl, applyOp]
    rw [if_neg (by simpa [inDims] using hout)]
  · intro hd x y hin
    rw [hops, if_neg hd]
    simp only [List.nil_append, applyOps, List.foldl, applyOp]
    rw [if_pos (by simpa [inDims] using hin)]

/-- First frame of the wrap counterexample: a 1x1 opaque red patch at the
origin, disposal 0. -/
def c4Frame0 : DecompressedFrame := ⟨⟨1, 1, 0, 0⟩, [255, 0, 0, 255], 1, 0⟩

/-- Last frame of the wrap counterexample: covers the whole 2x2 logical
screen and declares restore-to-background disposal. -/
def c4Frame1 : DecompressedFrame := ⟨⟨2, 2, 0, 0⟩, List.replicate 16 0, 1, 2⟩

/-- Composite surface holding an opaque pixel at (1, 1). -/
def c4Canvas : Canvas := fun x y =>
  if x = 1 ∧ y = 1 then ⟨9, 9, 9, 255⟩ else Pixel.transparent

/-- Player positioned on the last frame, about to wrap to frame 0. -/
def c4State : GifState := ⟨[c4Frame0, c4Frame1], 1, 0, c4Canvas⟩

/-- C4 counterexample: advancing wraps to frame 0 while the previously
displayed frame declares restore-to-background; its rectangle contains
(1, 1), the new frame's patch does not cover (1, 1), yet the pixel
survives un-cleared — the claimed clearing does not happen on the wrap. -/
theorem c4_counterexample :
    (c4State.frames.getD c4State.currentIndex defaultFrame).disposalType = 2 ∧
    (advance c4State 1000).currentIndex = 0 ∧
    inDims (c4State.frames.getD 1 defaultFrame).dims 1 1 ∧
    ¬ inDims (c4State.frames.getD 0 defaultFrame).dims 1 1 ∧
    (advance c4State 1000).canvas 1 1 = ⟨9, 9, 9, 255⟩ ∧
    (⟨9, 9, 9, 255⟩ : Pixel) ≠ Pixel.transparent := by
  have hadv : advance c4State 1000 =
      { c4State with
        currentIndex := 0,
        canvas := applyOps c4State.canvas (renderFrameOps c4State.frames 0),
        lastFrameTime := 1000 } := by
    unfold advance
    dsimp only
    rw [if_neg (by norm_num [c4State]),
      if_pos (by norm_num [c4State, c4Frame0, c4Frame1, defaultFrame])]
    have hidx : (c4State.currentIndex + 1) % c4State.frames.length = 0 := by decide
    rw [hidx]
  refine ⟨by decide, ?_, by decide, by decide, ?_, by decide⟩
  · rw [hadv]
  · rw [hadv]
    show applyOps c4State.canvas (renderFrameOps c4State.frames 0) 1 1 = _
    decide

/-- C4 witness: compositing frame index 1 of the two-frame sequence whose
first frame declares leave-in-place disposal paints the new patch on top
of the existing pixel at (1, 1) with source-over. -/
theorem c4_witness :
    applyOps c4Canvas (renderFrameOps [c4Frame0, c4Frame1] 1) 1 1 =
      sourceOver (patchPixel c4Frame1.patch c4Frame1.dims.width
        (1 - c4Frame1.dims.left) (1 - c4Frame1.dims.top)) (c4Canvas 1 1) :=
  (c4_amended [c4Frame0, c4Frame1] c4Canvas 1 c4Frame0 c4Frame1 (by decide)
    rfl rfl).2.2.2 (by decide) 1 1 (by decide)

/-! ## C10: no disposal on the wrap back to frame 0 -/

/-- C10: when advance wraps from the last frame back to frame index 0,
renderFrame(0) issues no clearing operation — the composite surface only
receives frame 0's patch, regardless of the final frame's disposal mode,
because the previous-frame disposal check requires a positive target
index. -/
theorem c10_wrap_no_disposal (s : GifState) (now : ℚ)
    (h2 : 2 ≤ s.frames.length)
    (hi : s.currentIndex = s.frames.length - 1)
    (helapsed : now - s.lastFrameTime ≥
      ((max 20 ((if (s.frames.getD s.currentIndex defaultFrame).delay = 0
        then 10 else (s.frames.getD s.currentIndex defaultFrame).delay)
        * 10) : ℕ) : ℚ)) :
    (advance s now).currentIndex = 0 ∧
    renderFrameOps s.frames 0 =
      [CanvasOp.drawPatch (s.frames.getD 0 defaultFrame).patch
        (s.frames.getD 0 defaultFrame).dims.left
        (s.frames.getD 0 defaultFrame).dims.top
        (s.frames.getD 0 defaultFrame).dims.width
        (s.frames.getD 0 defaultFrame).dims.height] ∧
    (advance s now).canvas =
      applyOp s.canvas (CanvasOp.drawPatch (s.frames.getD 0 defaultFrame).patch
        (s.frames.getD 0 defaultFrame).dims.left
        (s.frames.getD 0 defaultFrame).dims.top
        (s.frames.getD 0 defaultFrame).dims.width
        (s.frames.getD 0 defaultFrame).dims.height) := by
  have hnew : (s.currentIndex + 1) % s.frames.length = 0 := by
    have hlen : s.currentIndex + 1 = s.frames.length := by omega
    rw [hlen, Nat.mod_self]
  have hops : renderFrameOps s.frames 0 =
      [CanvasOp.drawPatch (s.frames.getD 0 defaultFrame).patch
        (s.frames.getD 0 defaultFrame).dims.left
        (s.frames.getD 0 defaultFrame).dims.top
        (s.frames.getD 0 defaultFrame).dims.width
        (s.frames.getD 0 defaultFrame).dims.height] := by
    unfold renderFrameOps
    rw [if_neg (by simp)]
    rfl
  have hadv : advance s now =
      { s with
        currentIndex := (s.currentIndex + 1) % s.frames.length,
        canvas := applyOps s.canvas
          (renderFrameOps s.frames ((s.currentIndex + 1) % s.frames.length)),
        lastFrameTime := now } := by
    unfold advance
    dsimp only
    rw [if_neg (by omega), if_pos helapsed]
  refine ⟨?_, hops, ?_⟩
  · rw [hadv]
    exact hnew
  · rw [hadv]
    show applyOps s.canvas (renderFrameOps s.frames ((s.currentIndex + 1) % s.frames.length)) = _
    rw [hnew, hops]
    rfl

/-- C10 witness: the concrete wrap state of the C4 counterexample indeed
lands on frame 0. -/
theorem c10_witness : (advance c4State 1000).currentIndex = 0 :=
  (c10_wrap_no_disposal c4State 1000 (by decide) (by decide)
    (by norm_num [c4State, c4Frame0, c4Frame1, defaultFrame])).1

/-! ## C7: fan triangulation of text-mesh face lines -/

/-- flatMap after a map composes pointwise. -/
theorem flatMap_map {α β γ : Type} (l : List α) (f : α → β) (g : β → List γ) :
    (l.map f).flatMap g = l.flatMap (fun a => g (f a)) := by
  induction l with
  | nil => rfl
  | cons x xs ih => simp [ih]

/-- C7: processing a face line listing n parsed vertex references
(n at least 3) appends exactly n - 2 index triples, fan-rooted at the
face's first reference, where a positive 1-based reference k resolves to
k - 1 and a non-positive reference resolves relative to the end of the
current vertex list; the vertex list itself is unchanged. -/
theorem c7_fan_triangulation (s : OBJState) (line : List Char)
    (toks : List (List Char)) (ks : List ℤ)
    (htok : tokensOf line = ['f'] :: toks)
    (hn : 3 ≤ toks.length)
    (hlen : ks.length = toks.length)
    (hks : ∀ i, i < toks.length →
      parseIntJS (splitSlashHead (toks.getD i [])) = some (ks.getD i 0)) :
    (processLine s line).indices =
      s.indices ++ (List.range (toks.length - 2)).flatMap (fun j =>
        [some (resolveIndex s.tempVerts.length (ks.getD 0 0)),
         some (resolveIndex s.tempVerts.length (ks.getD (j + 1) 0)),
         some (resolveIndex s.tempVerts.length (ks.getD (j + 2) 0))]) ∧
    (processLine s line).indices.length =
      s.indices.length + 3 * (toks.length - 2) ∧
    (processLine s line).tempVerts = s.tempVerts := by
  have hstate : processLine s line =
      { s with indices := s.indices ++
          fanIndices (toks.map (vrefResolve s.tempVerts.length)) } := by
    unfold processLine
    rw [htok]
    dsimp only
    rw [if_neg (by simp), if_neg (by simp), if_pos rfl]
  have hmap : toks.map (vrefResolve s.tempVerts.length) =
      ks.map (fun k => some (resolveIndex s.tempVerts.length k)) := by
    apply List.ext_getElem?
    intro i
    rw [List.getElem?_map, List.getElem?_map]
    by_cases hi : i < toks.length
    · rw [List.getElem?_eq_getElem hi,
        List.getElem?_eq_getElem (show i < ks.length by omega)]
      simp only [Option.map_some']
      have h1 := hks i hi
      have ht : toks.getD i [] = toks[i] := by
        rw [List.getD_eq_getElem?_getD, List.getElem?_eq_getElem hi]
        rfl
      have hk : ks.getD i 0 = ks[i] := by
        rw [List.getD_eq_getElem?_getD,
          List.getElem?_eq_getElem (show i < ks.length by omega)]
        rfl
      rw [ht, hk] at h1
      unfold vrefResolve
      rw [h1]
      rfl
    · rw [List.getElem?_eq_none (by omega), List.getElem?_eq_none (by omega)]
      rfl
  have hgetD : ∀ i, i < ks.length →
      (ks.map (fun k => some (resolveIndex s.tempVerts.length k))).getD i none =
        some (resolveIndex s.tempVerts.length (ks.getD i 0)) := by
    intro i hi
    rw [List.getD_eq_getElem?_getD, List.getElem?_map,
      List.getElem?_eq_getElem hi]
    simp only [Option.map_some', Option.getD_some]
    rw [List.getD_eq_getElem?_getD, List.getElem?_eq_getElem hi]
    rfl
  have hfan : fanIndices
      (ks.map (fun k => some (resolveIndex s.tempVerts.length k))) =
      (List.range (toks.length - 2)).flatMap (fun j =>
        [some (resolveIndex s.tempVerts.length (ks.getD 0 0)),
         some (resolveIndex s.tempVerts.length (ks.getD (j + 1) 0)),
         some (resolveIndex s.tempVerts.length (ks.getD (j + 2) 0))]) := by
    unfold fanIndices
    rw [List.length_map, hlen, List.range'_eq_map_range, flatMap_map]
    apply flatMap_congrOn
    intro j hj
    rw [List.mem_range] at hj
    dsimp only
    have e1 : 1 + j = j + 1 := by omega
    rw [e1]
    have e2 : j + 1 + 1 = j + 2 := by omega
    rw [e2]
    rw [hgetD 0 (by omega), hgetD (j + 1) (by omega), hgetD (j + 2) (by omega)]
  refine ⟨?_, ?_, ?_⟩
  · rw [hstate]
    dsimp only
    rw [hmap, hfan]
  · rw [hstate]
    dsimp only
    rw [hmap, hfan, List.length_append,
      length_flatMap_const _ _ 3 (by intro a _; rfl), List.length_range]
  · rw [hstate]

/-- Parser state holding three already-read vertices. -/
def c7State : OBJState :=
  ⟨[(['0'], ['0'], ['0']), (['0'], ['0'], ['0']), (['0'], ['0'], ['0'])], [], []⟩

/-- C7 witness: the face line f 1 2 -1 over three vertices becomes the
single fan triangle (0, 1, 2), the negative reference resolving to the
last vertex. -/
theorem c7_witness :
    (processLine c7State ['f', ' ', '1', ' ', '2', ' ', '-', '1']).indices =
      [some 0, some 1, some 2] ∧
    (processLine c7State ['f', ' ', '1', ' ', '2', ' ', '-', '1']).indices.length = 3 := by
  have h := c7_fan_triangulation c7State ['f', ' ', '1', ' ', '2', ' ', '-', '1']
    [['1'], ['2'], ['-', '1']] [1, 2, -1] (by decide) (by decide) (by decide)
    (by decide)
  refine ⟨h.1.trans (by decide), ?_⟩
  rw [h.2.1]
  decide

/-! ## C6: binary mesh decode -/

/-- A successful little-endian 32-bit read equals the total read. -/
theorem readU32LE_eq (bs : List ℕ) (off : ℕ) (h : off + 4 ≤ bs.length) :
    readU32LE bs off = some (f32At bs off) := by
  have hD : ∀ (k : ℕ) (hk : k < bs.length), bs.getD k 0 = bs[k] := by
    intro k hk
    rw [List.getD_eq_getElem?_getD, List.getElem?_eq_getElem hk]
    rfl
  unfold readU32LE f32At
  rw [List.getElem?_eq_getElem (show off < bs.length by omega),
    List.getElem?_eq_getElem (show off + 1 < bs.length by omega),
    List.getElem?_eq_getElem (show off + 2 < bs.length by omega),
    List.getElem?_eq_getElem (show off + 3 < bs.length by omega),
    hD off (by omega), hD (off + 1) (by omega), hD (off + 2) (by omega),
    hD (off + 3) (by omega)]
  rfl

/-- A successful float32 read equals the total read (bit patterns). -/
theorem readF32LE_eq (bs : List ℕ) (off : ℕ) (h : off + 4 ≤ bs.length) :
    readF32LE bs off = some (f32At bs off) :=
  readU32LE_eq bs off h

/-- A triangle record read inside the buffer succeeds and yields the nine
vertex float patterns and the stored normal repeated for each vertex. -/
theorem readTriangle_eq (bs : List ℕ) (i : ℕ)
    (h : 84 + i * 50 + 48 ≤ bs.length) :
    readTriangle bs i = some
      (((List.range 3).map (fun v => (List.range 3).map (fun c =>
          f32At bs (84 + i * 50 + 12 + v * 12 + 4 * c)))).flatten,
       (List.range 3).flatMap (fun _ => (List.range 3).map (fun c =>
          f32At bs (84 + i * 50 + 4 * c)))) := by
  unfold readTriangle
  dsimp only
  rw [mapM_eq_some_map (fun c hc => readF32LE_eq bs (84 + i * 50 + 4 * c) (by
    rw [List.mem_range] at hc
    omega))]
  rw [mapM_eq_some_map (fun v hv => mapM_eq_some_map (fun c hc =>
    readF32LE_eq bs (84 + i * 50 + 12 + v * 12 + 4 * c) (by
      rw [List.mem_range] at hv
      rw [List.mem_range] at hc
      omega)))]
  rfl

/-- The binary STL parse of a buffer declaring K triangles with enough
bytes for them succeeds with the flattened per-triangle blocks. -/
theorem parseSTLBinary_eq (bs : List ℕ) (K : ℕ)
    (hcount : readU32LE bs 80 = some K)
    (hlen : 84 + 50 * K ≤ bs.length) :
    parseSTLBinary bs = some (K,
      ((List.range K).map (fun i => ((List.range 3).map (fun v =>
        (List.range 3).map (fun c =>
          f32At bs (84 + i * 50 + 12 + v * 12 + 4 * c)))).flatten)).flatten,
      ((List.range K).map (fun i => (List.range 3).flatMap (fun _ =>
        (List.range 3).map (fun c =>
          f32At bs (84 + i * 50 + 4 * c))))).flatten) := by
  have hstep : parseSTLBinary bs =
      ((List.range K).mapM (readTriangle bs)).bind (fun tris =>
        some (K, (tris.map Prod.fst).flatten, (tris.map Prod.snd).flatten)) := by
    unfold parseSTLBinary
    rw [hcount]
    rfl
  rw [hstep]
  rw [mapM_eq_some_map (fun i hi => readTriangle_eq bs i (by
    rw [List.mem_range] at hi
    omega))]
  rw [Option.some_bind]
  simp only [List.map_map]
  rfl

/-- C6: decoding a binary mesh buffer whose little-endian count field at
offset 80 declares K triangles, with the buffer long enough for K 50-byte
records, produces exactly K triangles: 9K vertex floats and 9K normal
slots; each triangle i reads its 50-byte record at 84 + 50 i (3 float32
normal components, then 3 vertices of 3 float32 each, the 2 trailing
bytes ignored), and all three vertices of a triangle carry the triangle's
single stored normal. -/
theorem c6_stl_binary (bs : List ℕ) (K : ℕ)
    (hascii : isAsciiSTL bs = false)
    (hcount : readU32LE bs 80 = some K)
    (hlen : 84 + 50 * K ≤ bs.length) :
    ∃ V N : List ℕ,
      parseSTL bs = some (STLResult.binary K V N) ∧
      V.length = 9 * K ∧ N.length = 9 * K ∧
      (∀ i < K, ∀ v < 3, ∀ c < 3,
        V[i * 9 + v * 3 + c]? =
          some (f32At bs (84 + i * 50 + 12 + v * 12 + 4 * c)) ∧
        N[i * 9 + v * 3 + c]? = some (f32At bs (84 + i * 50 + 4 * c))) := by
  refine ⟨((List.range K).map (fun i => ((List.range 3).map (fun v =>
      (List.range 3).map (fun c =>
        f32At bs (84 + i * 50 + 12 + v * 12 + 4 * c)))).flatten)).flatten,
    ((List.range K).map (fun i => (List.range 3).flatMap (fun _ =>
      (List.range 3).map (fun c => f32At bs (84 + i * 50 + 4 * c))))).flatten,
    ?_, ?_, ?_, ?_⟩
  · unfold parseSTL
    rw [if_neg (by rw [hascii]; exact Bool.false_ne_true)]
    rw [parseSTLBinary_eq bs K hcount hlen]
    rfl
  · rw [← flatMap_eq_flatten_map,
      length_flatMap_const _ _ 9 (by intro a _; rfl), List.length_range]
  · rw [← flatMap_eq_flatten_map,
      length_flatMap_const _ _ 9 (by intro a _; rfl), List.length_range]
  · intro i hi v hv c hc
    constructor
    · have e : i * 9 + v * 3 + c = i * 9 + (v * 3 + c) := by omega
      rw [e]
      have hm : ∀ l ∈ (List.range K).map (fun i => ((List.range 3).map (fun v =>
          (List.range 3).map (fun c =>
            f32At bs (84 + i * 50 + 12 + v * 12 + 4 * c)))).flatten),
          l.length = 9 := by
        intro l hl
        rw [List.mem_map] at hl
        obtain ⟨a, _, ha⟩ := hl
        rw [← ha]
        rfl
      rw [flatten_getElem_uniform _ 9 hm i (v * 3 + c) (by simp [hi]) (by omega)]
      have hgi : ((List.range K).map (fun i => ((List.range 3).map (fun v =>
          (List.range 3).map (fun c =>
            f32At bs (84 + i * 50 + 12 + v * 12 + 4 * c)))).flatten)).getD i [] =
          ((List.range 3).map (fun v => (List.range 3).map (fun c =>
            f32At bs (84 + i * 50 + 12 + v * 12 + 4 * c)))).flatten := by
        rw [List.getD_eq_getElem?_getD, List.getElem?_map]
        simp [List.getElem?_range, hi]
      rw [hgi]
      interval_cases v <;> interval_cases c <;> rfl
    · have e : i * 9 + v * 3 + c = i * 9 + (v * 3 + c) := by omega
      rw [e]
      have hm : ∀ l ∈ (List.range K).map (fun i => (List.range 3).flatMap
          (fun _ => (List.range 3).map (fun c =>
            f32At bs (84 + i * 50 + 4 * c)))), l.length = 9 := by
        intro l hl
        rw [List.mem_map] at hl
        obtain ⟨a, _, ha⟩ := hl
        rw [← ha]
        rfl
      rw [flatten_getElem_uniform _ 9 hm i (v * 3 + c) (by simp [hi]) (by omega)]
      have hgi : ((List.range K).map (fun i => (List.range 3).flatMap
          (fun _ => (List.range 3).map (fun c =>
            f32At bs (84 + i * 50 + 4 * c))))).getD i [] =
          (List.range 3).flatMap (fun _ => (List.range 3).map (fun c =>
            f32At bs (84 + i * 50 + 4 * c))) := by
        rw [List.getD_eq_getElem?_getD, List.getElem?_map]
        simp [List.getElem?_range, hi]
      rw [hgi]
      interval_cases v <;> interval_cases c <;> rfl

/-- A minimal binary mesh buffer: 80-byte header, count 1, one zeroed
50-byte triangle record. -/
def c6Buf : List ℕ := List.replicate 80 0 ++ [1, 0, 0, 0] ++ List.replicate 50 0

set_option maxRecDepth 4000 in
/-- C6 witness: the 134-byte buffer declaring one triangle decodes to one
triangle with the stated layout. -/
theorem c6_witness : ∃ V N : List ℕ,
    parseSTL c6Buf = some (STLResult.binary 1 V N) ∧
    V.length = 9 * 1 ∧ N.length = 9 * 1 ∧
    (∀ i < 1, ∀ v < 3, ∀ c < 3,
      V[i * 9 + v * 3 + c]? =
        some (f32At c6Buf (84 + i * 50 + 12 + v * 12 + 4 * c)) ∧
      N[i * 9 + v * 3 + c]? = some (f32At c6Buf (84 + i * 50 + 4 * c))) :=
  c6_stl_binary c6Buf 1 (by decide) (by decide) (by decide)

end Shapetone
